import Mathlib

/-!
Shallow embedding of the protogen-javascript descriptor-graph builder and
generation engine (src/src/main.ts, src/src/plugin.ts), together with
theorems settling the frozen claims about its specification.

JavaScript values that may be `undefined` are modelled as `Option`;
falsiness checks on strings and numbers are modelled explicitly
(empty string and zero are falsy). Thrown errors are modelled with
`Except`.
-/

namespace Protogen

/-! ## JavaScript string primitives

`String.prototype.split(sep)` for a single-character separator: splitting
the empty string yields `[""]`, adjacent separators yield empty pieces.
`split(sep, limit)` computes the full split and keeps the first `limit`
pieces (JavaScript truncates, it does not keep the remainder). -/

def jsSplitAux (sep : Char) : List Char → List Char → List (List Char)
| [], acc => [acc.reverse]
| c :: cs, acc =>
  if c = sep then acc.reverse :: jsSplitAux sep cs []
  else jsSplitAux sep cs (c :: acc)

def jsSplit (sep : Char) (s : String) : List String :=
  (jsSplitAux sep s.data []).map (fun cs => ⟨cs⟩)

def jsSplitLimit (sep : Char) (limit : Nat) (s : String) : List String :=
  (jsSplit sep s).take limit

/-! ## Parameter parsing (Options.run, src/src/plugin.ts lines 55-70)

The parameter string is split on commas; empty entries are skipped; each
entry is split with `entry.split("=", 2)`; a singleton split maps the key
to the empty string, otherwise the first two pieces become key and value.
The result goes into a `Map` via `params.set(key, value)`, modelled as an
insertion-ordered association list with overwrite-on-existing-key. -/

def mapSet (m : List (String × String)) (k v : String) : List (String × String) :=
  if m.any (fun kv => kv.fst = k) then
    m.map (fun kv => if kv.fst = k then (k, v) else kv)
  else m ++ [(k, v)]

def parseParamEntry (params : List (String × String)) (param : String) :
    List (String × String) :=
  if param = "" then params
  else
    let split := jsSplitLimit '=' 2 param
    if split.length = 1 then mapSet params (split.getD 0 "") ""
    else mapSet params (split.getD 0 "") (split.getD 1 "")

def parseParams (paramString : String) : List (String × String) :=
  (jsSplit ',' paramString).foldl parseParamEntry []

/-- Value the specification (and the comment above the source loop) assigns
to an entry with several equal signs: split only at the first one, the
remainder including further equal signs belongs to the value. -/
def specFirstEqSplit (entry : String) : String × String :=
  match jsSplit '=' entry with
  | [] => (entry, "")
  | [k] => (k, "")
  | k :: rest => (k, String.intercalate "=" rest)

/-! ## Method.grpcPath (Method.constructor, src/src/main.ts line 399)

The source reads `this.grpcPath = `/${parent.fullName}/{name}`;` — the
second interpolation marker is missing, so the literal text `{name}` is
appended for every method. -/

def methodGrpcPath (serviceFullName : String) (_methodName : String) : String :=
  "/" ++ serviceFullName ++ "/" ++ "\x7bname\x7d"

/-- Path the doc comment of `Method.grpcPath` (src/src/main.ts lines
358-361) and the specification describe: slash, service full name, slash,
method short name. -/
def specGrpcPath (serviceFullName : String) (methodName : String) : String :=
  "/" ++ serviceFullName ++ "/" ++ methodName

/-! ## FileOptions (FileOptions.constructor, src/src/main.ts lines 213-235)

Only the fields the claims touch are modelled. The source assigns
`this.javaPackage = proto?.getGoPackage();` — the go_package option value,
not java_package. -/

structure FileOptionsProto where
  javaPackage : Option String
  goPackage : Option String
deriving DecidableEq

structure FileOptions where
  javaPackage : Option String
  goPackage : Option String
deriving DecidableEq

def FileOptions.ofProto (proto : Option FileOptionsProto) : FileOptions :=
  { javaPackage := proto.bind (fun p => p.goPackage)
    goPackage := proto.bind (fun p => p.goPackage) }

/-! ## Field construction (Field.constructor, src/src/main.ts lines 950-1003)

`kind` (src/src/main.ts lines 1266-1268) is the identity on numbers; the
constructor rejects an absent or zero (falsy) type, name, or number and an
unrecognized label. -/

def kind (n : Nat) : Nat := n

inductive Cardinality where
  | Optional
  | Required
  | Repeated
deriving DecidableEq, BEq

structure FieldDescriptorProto where
  name : Option String
  number : Option Nat
  type : Option Nat
  label : Option Nat
deriving DecidableEq

inductive FieldCtorErr where
  | nameNotPopulated
  | numberNotPopulated
  | typeNotPopulated
  | unrecognizedLabel
deriving DecidableEq

structure FieldCore where
  name : String
  number : Nat
  kind : Nat
  cardinality : Cardinality
deriving DecidableEq

def fieldCtor (proto : FieldDescriptorProto) : Except FieldCtorErr FieldCore :=
  match proto.name with
  | none => .error .nameNotPopulated
  | some nm =>
    if nm = "" then .error .nameNotPopulated
    else
      match proto.number with
      | none => .error .numberNotPopulated
      | some num =>
        if num = 0 then .error .numberNotPopulated
        else
          match proto.type with
          | none => .error .typeNotPopulated
          | some ty =>
            if ty = 0 then .error .typeNotPopulated
            else
              match proto.label.getD 0 with
              | 1 => .ok ⟨nm, num, kind ty, .Optional⟩
              | 2 => .ok ⟨nm, num, kind ty, .Required⟩
              | 3 => .ok ⟨nm, num, kind ty, .Repeated⟩
              | _ => .error .unrecognizedLabel

/-! ## File construction (File.constructor, src/src/main.ts lines 53-108)

The fragment the claims need: the name and package checks. Both use
JavaScript falsiness, so an absent or empty string is rejected. -/

inductive FileCtorErr where
  | nameNull
  | packageNotPopulated
deriving DecidableEq

structure FileDescriptorCore where
  name : String
  packageName : String
deriving DecidableEq

def fileCtorCore (name : Option String) (packageName : Option String) :
    Except FileCtorErr FileDescriptorCore :=
  match name with
  | none => .error .nameNull
  | some nm =>
    if nm = "" then .error .nameNull
    else
      match packageName with
      | none => .error .packageNotPopulated
      | some pkg =>
        if pkg = "" then .error .packageNotPopulated
        else .ok ⟨nm, pkg⟩

/-! ## Build trace (Options.run, src/src/plugin.ts lines 74-88;
Plugin.constructor, src/unnamed/part_003 lines 138-151)

Both loops iterate over the proto file list once and, inside a single
iteration, call `file._register(registry)` and then
`file._resolve(registry)` for that file before moving to the next file.
The trace records the register and resolve events in execution order,
identifying files by their position in the request. -/

inductive BuildEvent where
  | registerFile (i : Nat)
  | resolveFile (i : Nat)
deriving DecidableEq

def runBuildTrace : Nat → List BuildEvent
  | 0 => []
  | n + 1 => runBuildTrace n ++ [BuildEvent.registerFile n, BuildEvent.resolveFile n]

/-- Property the claim asserts of the trace: every register event of every
file precedes every resolve event of every file. -/
def phaseSeparated (t : List BuildEvent) : Prop :=
  ∀ (i j a b : Nat), t[i]? = some (BuildEvent.resolveFile a) →
    t[j]? = some (BuildEvent.registerFile b) → j < i

/-! ## Oneof attachment (Message.constructor, src/src/main.ts lines 528-552)

For a field descriptor with `hasOneofIndex()`, the constructor throws
`no such oneofindex` when `this.oneofs.length < oneofIdx`; otherwise it
reads `this.oneofs[oneofIdx]` — which in JavaScript is `undefined` when
`oneofIdx` equals the length — and then evaluates `oneof.fields.push(field)`,
which throws a TypeError when `oneof` is `undefined`. On success the field
is pushed onto the oneof at that index. Oneofs are modelled by their name
and the list of attached field numbers. -/

structure OneofState where
  name : String
  fields : List Nat
deriving DecidableEq

inductive OneofAttachErr where
  | noSuchOneofIndex
  | undefinedOneofAccess
deriving DecidableEq

def attachOneofField (oneofs : List OneofState) (oneofIdx : Nat) (fld : Nat) :
    Except OneofAttachErr (List OneofState) :=
  if oneofs.length < oneofIdx then .error .noSuchOneofIndex
  else
    match oneofs[oneofIdx]? with
    | some o => .ok (oneofs.set oneofIdx ⟨o.name, o.fields ++ [fld]⟩)
    | none => .error .undefinedOneofAccess

/-! ## Message and Field graph (src/src/main.ts)

The resolved-graph view needed by the map-field claims: a `Message` holds
its raw proto options, its fields, and its nested messages; a `Field`
holds its cardinality and its resolved target message (set during the
resolve pass, `none` when the field is not message-typed).
`MessageOptions` (lines 628-663) reads `proto?.getMapEntry()`, which is
`undefined` when there is no options proto. -/

structure MessageOptionsProto where
  mapEntry : Option Bool
deriving DecidableEq

structure MessageOptions where
  mapEntry : Option Bool
deriving DecidableEq

def MessageOptions.ofProto (proto : Option MessageOptionsProto) : MessageOptions :=
  ⟨proto.bind (fun p => p.mapEntry)⟩

mutual

inductive Message where
  | mk (protoOptions : Option MessageOptionsProto) (fields : List Field)
      (messages : List Message)

inductive Field where
  | mk (cardinality : Cardinality) (message : Option Message)

end

def Message.protoOptions : Message → Option MessageOptionsProto
  | .mk o _ _ => o

def Message.fields : Message → List Field
  | .mk _ f _ => f

def Message.messages : Message → List Message
  | .mk _ _ m => m

def Message.options (m : Message) : MessageOptions :=
  MessageOptions.ofProto m.protoOptions

def Field.cardinality : Field → Cardinality
  | .mk c _ => c

def Field.message : Field → Option Message
  | .mk _ m => m

/-- Field.isMap (src/src/main.ts lines 1044-1053): `false` when the
resolved message is `null`; otherwise the mapEntry option when it is not
`undefined`, else `false`. -/
def Field.isMap (f : Field) : Bool :=
  match f.message with
  | none => false
  | some m =>
    match m.options.mapEntry with
    | some b => b
    | none => false

/-- Field.isList (src/src/main.ts lines 1060-1062). -/
def Field.isList (f : Field) : Bool :=
  f.cardinality == Cardinality.Repeated && !f.isMap

/-- Field.mapKey (src/src/main.ts lines 1068-1073): `null` unless isMap;
else `this.message!.fields[0]`. -/
def Field.mapKey (f : Field) : Option Field :=
  if f.isMap then f.message.bind (fun m => m.fields[0]?) else none

/-- Field.mapValue (src/src/main.ts lines 1079-1098): `null` unless isMap;
else `this.message!.fields[1]`. -/
def Field.mapValue (f : Field) : Option Field :=
  if f.isMap then f.message.bind (fun m => m.fields[1]?) else none

/-- Removal predicate of Message.\_resolve (src/src/main.ts line 621):
`m.proto.getOptions() && m.proto.getOptions()!.getMapEntry() == true` —
a truthy options proto whose map_entry option compares equal to `true`. -/
def isMapEntryProto (m : Message) : Bool :=
  match m.protoOptions with
  | some o => o.mapEntry == some true
  | none => false

/-- `messages.splice(i, 1)` removes the element at index `i`. -/
def spliceAt (l : List Message) (i : Nat) : List Message :=
  l.take i ++ l.drop (i + 1)

/-- The backwards `while (i--)` removal loop of Message.\_resolve
(src/src/main.ts lines 618-624): `i` starts at the list length and each
iteration inspects index `i - 1`, splicing it out when the map-entry
predicate holds. -/
def removeMapEntriesAux : Nat → List Message → List Message
  | 0, l => l
  | i + 1, l =>
    removeMapEntriesAux i
      (match l[i]? with
       | some m => if isMapEntryProto m then spliceAt l i else l
       | none => l)

def removeMapEntries (l : List Message) : List Message :=
  removeMapEntriesAux l.length l

/-! ## Import paths, aliasing and generated files (src/src/plugin.ts)

`JSImportPath` (src/src/main.ts lines 1157-1212) carries a local path, an
npm module name and a path under that module; its `equals` method compares
only `npmModule` and `path`. -/

structure JSImportPath where
  path : String
  npmModule : String
  npmPathUnderModule : String
deriving DecidableEq

def JSImportPath.equals (a other : JSImportPath) : Bool :=
  a.npmModule == other.npmModule && a.path == other.path

structure JSIdent where
  importPath : JSImportPath
  name : String
deriving DecidableEq

/-- Character class of the regex `[\/@\.-]` used by aliasImportPath. -/
def aliasSanitizeChars : List Char := ['/', '@', '.', '-']

/-- `s.replace(/[...]/g, "_")` for a character class: every character of
the class becomes an underscore. -/
def jsReplaceUnderscore (cls : List Char) (s : String) : String :=
  ⟨s.data.map (fun c => if c ∈ cls then '_' else c)⟩

/-- `s.replace(/@/g, "")`: every at sign is removed. -/
def jsDropAtSign (s : String) : String :=
  ⟨s.data.filter (fun c => c ≠ '@')⟩

/-- aliasImportPath (src/src/plugin.ts lines 320-338). For a foreign npm
module the module name has `/`, `.`, `-` replaced by underscores and `@`
removed; the path under the module, and the local path in the same-module
branch, have all of `/`, `@`, `.`, `-` replaced by underscores. -/
def aliasImportPath (g jsImportPath : JSImportPath) : String :=
  if g.npmModule ≠ jsImportPath.npmModule then
    if jsImportPath.npmPathUnderModule = "" then
      jsDropAtSign (jsReplaceUnderscore ['/', '.', '-'] jsImportPath.npmModule)
    else
      jsDropAtSign (jsReplaceUnderscore ['/', '.', '-'] jsImportPath.npmModule) ++ "__" ++
        jsReplaceUnderscore aliasSanitizeChars jsImportPath.npmPathUnderModule
  else "_" ++ jsReplaceUnderscore aliasSanitizeChars jsImportPath.path

/-- Sanitize as the specification words it: replace every occurrence of
each of the characters `/`, `.`, `-` and `@` with an underscore. -/
def specSanitize (s : String) : String :=
  ⟨s.data.map (fun c =>
    if c = '/' ∨ c = '.' ∨ c = '-' ∨ c = '@' then '_' else c)⟩

/-- Alias formula exactly as the claim states it, built from
`specSanitize` in every part. -/
def specAliasImportPath (g p : JSImportPath) : String :=
  if g.npmModule ≠ p.npmModule then
    if p.npmPathUnderModule = "" then specSanitize p.npmModule
    else specSanitize p.npmModule ++ "__" ++ specSanitize p.npmPathUnderModule
  else "_" ++ specSanitize p.path

/-- Package-name sanitization as the code actually behaves: `@` is
removed, and `/`, `.`, `-` become underscores. -/
def amendedPkgSanitize (s : String) : String :=
  ⟨s.data.filterMap (fun c =>
    if c = '@' then none
    else some (if c = '/' ∨ c = '.' ∨ c = '-' then '_' else c))⟩

/-- Alias formula of the amended claim: `specSanitize` for the sub-path
and local-path parts, `amendedPkgSanitize` for the package-name part. -/
def amendedAliasImportPath (g p : JSImportPath) : String :=
  if g.npmModule ≠ p.npmModule then
    if p.npmPathUnderModule = "" then amendedPkgSanitize p.npmModule
    else amendedPkgSanitize p.npmModule ++ "__" ++ specSanitize p.npmPathUnderModule
  else "_" ++ specSanitize p.path

/-! ## GeneratedFile (src/src/plugin.ts lines 196-299)

The buffer state: output lines, the import mark (−1 until printImports is
called), and the accumulated import list. -/

structure GeneratedFile where
  filename : String
  jsImportPath : JSImportPath
  buf : List String
  importMark : Int
  imports : List JSImportPath
deriving DecidableEq

def GeneratedFile.new (filename : String) (jsImportPath : JSImportPath) : GeneratedFile :=
  ⟨filename, jsImportPath, [], -1, []⟩

/-- GeneratedFile.addImport (src/src/plugin.ts lines 251-260): scan the
recorded import list for an entry `equals`-equal to the candidate; append
only if none is found. -/
def GeneratedFile.addImport (g : GeneratedFile) (jsImportPath : JSImportPath) :
    GeneratedFile × Bool :=
  if g.imports.any (fun imp => imp.equals jsImportPath) then (g, false)
  else ({ g with imports := g.imports ++ [jsImportPath] }, true)

/-- GeneratedFile.qualifiedJSIdent (src/src/plugin.ts lines 240-249):
return the bare name when the import paths are `equals`-equal; otherwise
record the import and return `alias.name`. Returns the string together
with the updated buffer state. -/
def GeneratedFile.qualifiedJSIdent (g : GeneratedFile) (ident : JSIdent) :
    String × GeneratedFile :=
  if g.jsImportPath.equals ident.importPath then (ident.name, g)
  else
    let g1 := (g.addImport ident.importPath).fst
    let aliasStr := aliasImportPath g.jsImportPath ident.importPath
    (aliasStr ++ "." ++ ident.name, g1)

/-- Import statements generated by GeneratedFile.proto (src/src/plugin.ts
lines 276-298): one statement per recorded import, in order. The module
specifier comes from `resolveImport`, which delegates to the platform path
library; it is passed in as a function parameter. -/
def GeneratedFile.importStatements (g : GeneratedFile)
    (resolveImport : JSImportPath → JSImportPath → String) : List String :=
  g.imports.map (fun imp =>
    "import * as " ++ aliasImportPath g.jsImportPath imp ++ " from \"" ++
      resolveImport g.jsImportPath imp ++ "\";")

/-! ## Concrete instances used by witnesses and counterexamples -/

def mapKeyFieldW : Field := Field.mk Cardinality.Optional none

def mapValueFieldW : Field := Field.mk Cardinality.Optional none

def mapEntryMessageW : Message :=
  Message.mk (some ⟨some true⟩) [mapKeyFieldW, mapValueFieldW] []

def mapFieldW : Field := Field.mk Cardinality.Repeated (some mapEntryMessageW)

def ownerMessageW : Message := Message.mk none [] [mapEntryMessageW]

def c6HomePath : JSImportPath := ⟨"p", "m", "a"⟩

def c6ForeignPath : JSImportPath := ⟨"p", "m", "b"⟩

def c6Ident : JSIdent := ⟨c6ForeignPath, "X"⟩

def c6wHomePath : JSImportPath := ⟨"x", "", ""⟩

def c6wForeignPath : JSImportPath := ⟨"y", "", ""⟩

def c6wIdent : JSIdent := ⟨c6wForeignPath, "T"⟩

/-! ## Theorems -/

theorem length_runBuildTrace (n : Nat) : (runBuildTrace n).length = 2 * n := by
  induction n with
  | zero => rfl
  | succ n ih =>
    rw [runBuildTrace, List.length_append, ih]
    simp only [List.length_cons, List.length_nil]
    omega

/-- C1 counterexample: in a two-file request, the trace produced by the
per-file loop of Options.run resolves file 0 (position 1) before it
registers file 1 (position 2), so registration is not completed for every
file before the first resolve step runs. This proves the claim false as
stated. -/
theorem c1_counterexample : ¬ phaseSeparated (runBuildTrace 2) := by
  intro h
  have h10 : (runBuildTrace 2)[1]? = some (BuildEvent.resolveFile 0) := by decide
  have h21 : (runBuildTrace 2)[2]? = some (BuildEvent.registerFile 1) := by decide
  have hlt := h 1 2 0 1 h10 h21
  omega

/-- C1 amended: registration and resolution are interleaved per file in
request order. For every file index `i` of an `n`-file request, the build
trace has the register event of file `i` at position `2 * i` and its
resolve event immediately afterwards at position `2 * i + 1`; hence each
file is resolved after the registers of all files at earlier-or-equal
positions but before the registers of all later files. -/
theorem c1_interleaved_build (n i : Nat) (h : i < n) :
    (runBuildTrace n)[2 * i]? = some (BuildEvent.registerFile i) ∧
    (runBuildTrace n)[2 * i + 1]? = some (BuildEvent.resolveFile i) := by
  induction n with
  | zero => exact absurd h (Nat.not_lt_zero i)
  | succ n ih =>
    rcases Nat.lt_succ_iff_lt_or_eq.mp h with h1 | h1
    · have hlen := length_runBuildTrace n
      rw [runBuildTrace]
      constructor
      · rw [List.getElem?_append_left (by omega)]
        exact (ih h1).1
      · rw [List.getElem?_append_left (by omega)]
        exact (ih h1).2
    · subst h1
      have hlen := length_runBuildTrace i
      rw [runBuildTrace]
      constructor
      · rw [List.getElem?_append_right (by omega), hlen]
        simp
      · rw [List.getElem?_append_right (by omega), hlen]
        simp [Nat.add_sub_cancel_left]

theorem c1_interleaved_build_witness :
    (1 < 2) ∧
    ((runBuildTrace 2)[2 * 1]? = some (BuildEvent.registerFile 1) ∧
      (runBuildTrace 2)[2 * 1 + 1]? = some (BuildEvent.resolveFile 1)) :=
  ⟨by decide, c1_interleaved_build 2 1 (by decide)⟩

theorem spliceAt_length (l : List Message) (i : Nat) (h : i < l.length) :
    (spliceAt l i).length = l.length - 1 := by
  rw [spliceAt, List.length_append, List.length_take, List.length_drop]
  omega

theorem spliceAt_take (l : List Message) (i : Nat) (h : i ≤ l.length) :
    (spliceAt l i).take i = l.take i := by
  rw [spliceAt, List.take_append_eq_append_take]
  have hlen : (l.take i).length = i := by
    rw [List.length_take]
    omega
  rw [hlen, Nat.sub_self, List.take_take, Nat.min_self, List.take_zero, List.append_nil]

theorem spliceAt_drop (l : List Message) (i : Nat) (h : i ≤ l.length) :
    (spliceAt l i).drop i = l.drop (i + 1) := by
  rw [spliceAt, List.drop_append_eq_append_drop]
  have hlen : (l.take i).length = i := by
    rw [List.length_take]
    omega
  rw [hlen, Nat.sub_self, List.drop_zero]
  have hnil : (l.take i).drop i = [] := by
    apply List.drop_eq_nil_of_le
    omega
  rw [hnil, List.nil_append]

theorem removeMapEntriesAux_eq (i : Nat) :
    ∀ l : List Message, i ≤ l.length →
      removeMapEntriesAux i l =
        (l.take i).filter (fun m => !isMapEntryProto m) ++ l.drop i := by
  induction i with
  | zero =>
    intro l _
    simp [removeMapEntriesAux]
  | succ i ih =>
    intro l hle
    have hi : i < l.length := by omega
    have hget : l[i]? = some l[i] := List.getElem?_eq_getElem hi
    rw [removeMapEntriesAux]
    rw [hget]
    have hred :
        (match some l[i] with
         | some m => if isMapEntryProto m then spliceAt l i else l
         | none => l) = if isMapEntryProto l[i] then spliceAt l i else l := rfl
    rw [hred]
    by_cases hm : isMapEntryProto l[i]
    · rw [if_pos hm]
      have hsp : i ≤ (spliceAt l i).length := by
        rw [spliceAt_length l i hi]
        omega
      have hfe : List.filter (fun m => !isMapEntryProto m) (l.take (i + 1)) =
          List.filter (fun m => !isMapEntryProto m) (l.take i) := by
        rw [List.take_succ, hget, Option.toList_some, List.filter_append,
          List.filter_cons]
        rw [hm]
        simp
      rw [ih (spliceAt l i) hsp, spliceAt_take l i (Nat.le_of_lt hi),
        spliceAt_drop l i (Nat.le_of_lt hi), hfe]
    · rw [if_neg hm]
      have hq : isMapEntryProto l[i] = false := Bool.eq_false_iff.mpr hm
      have hfe : List.filter (fun m => !isMapEntryProto m) (l.take (i + 1)) =
          List.filter (fun m => !isMapEntryProto m) (l.take i) ++ [l[i]] := by
        rw [List.take_succ, hget, Option.toList_some, List.filter_append,
          List.filter_cons]
        rw [hq]
        simp
      rw [ih l (Nat.le_of_lt hi), hfe, List.append_assoc, List.singleton_append,
        ← List.drop_eq_getElem_cons hi]

theorem removeMapEntries_eq_filter (l : List Message) :
    removeMapEntries l = l.filter (fun m => !isMapEntryProto m) := by
  rw [removeMapEntries, removeMapEntriesAux_eq l.length l (Nat.le_refl _)]
  simp

/-- C2: for every Field whose resolved message target is a synthetic
map-entry Message (mapEntry option true) with fields `[k, v]`, after the
build isMap is true, isList is false, mapKey is the first field, mapValue
is the second field, and the resolve-pass removal loop drops the
map-entry Message from any nested-message list, in particular from its
owning Message. -/
theorem c2_map_field (f : Field) (m : Message) (k v : Field) (owner : Message)
    (hm : f.message = some m)
    (hopt : m.options.mapEntry = some true)
    (hf : m.fields = [k, v]) :
    f.isMap = true ∧ f.isList = false ∧ f.mapKey = some k ∧ f.mapValue = some v ∧
    m ∉ removeMapEntries owner.messages := by
  have hmap : f.isMap = true := by
    simp [Field.isMap, hm, hopt]
  have hproto : isMapEntryProto m = true := by
    rcases hpo : m.protoOptions with _ | o
    · simp [Message.options, MessageOptions.ofProto, hpo] at hopt
    · simp [Message.options, MessageOptions.ofProto, hpo] at hopt
      simp [isMapEntryProto, hpo, hopt]
  refine ⟨hmap, ?_, ?_, ?_, ?_⟩
  · simp [Field.isList, hmap]
  · simp [Field.mapKey, hmap, hm, hf]
  · simp [Field.mapValue, hmap, hm, hf]
  · rw [removeMapEntries_eq_filter]
    intro hmem
    have hkeep := (List.mem_filter.mp hmem).2
    rw [hproto] at hkeep
    exact absurd hkeep (by decide)

theorem c2_map_field_witness :
    mapFieldW.message = some mapEntryMessageW ∧
    mapFieldW.isMap = true ∧ mapFieldW.isList = false ∧
    mapFieldW.mapKey = some mapKeyFieldW ∧ mapFieldW.mapValue = some mapValueFieldW ∧
    mapEntryMessageW ∉ removeMapEntries ownerMessageW.messages := by
  have h := c2_map_field mapFieldW mapEntryMessageW mapKeyFieldW mapValueFieldW
    ownerMessageW rfl rfl rfl
  exact ⟨rfl, h.1, h.2.1, h.2.2.1, h.2.2.2.1, h.2.2.2.2⟩

/-- C3: the claim (and the comment above the parsing loop) says the entry
`k=v=v2` maps key `k` to value `v=v2`; but `param.split("=", 2)` in
JavaScript truncates to the first two pieces, so the code maps `k` to `v`
and drops `=v2`. This theorem evaluates the embedded parser at the
failing input and contrasts it with the first-equal-sign split the claim
describes. -/
theorem c3_split_truncates :
    parseParams "k=v=v2" = [("k", "v")] ∧
    specFirstEqSplit "k=v=v2" = ("k", "v=v2") ∧
    parseParams "k=v=v2" ≠ [("k", "v=v2")] := by
  refine ⟨by decide, by decide, by decide⟩

/-- C4: the source line builds the dispatch path with the literal text
`{name}` (the template placeholder lacks its dollar sign), so the method
short name never appears: for service `pkg.Svc` and method `GetThing` the
code yields `/pkg.Svc/{name}`, not the `/pkg.Svc/GetThing` that the claim
and the doc comment of `Method.grpcPath` describe. -/
theorem c4_grpc_path_literal :
    methodGrpcPath "pkg.Svc" "GetThing" = "/pkg.Svc/" ++ "\x7bname\x7d" ∧
    methodGrpcPath "pkg.Svc" "GetThing" ≠ specGrpcPath "pkg.Svc" "GetThing" := by
  refine ⟨by decide, by decide⟩

/-- C5: attaching a field with a declared oneof index fails if and only if
the index is outside `0 .. numberOfOneofs - 1`, and on success the field
is pushed onto the Oneof at that index. When the index exceeds the length
the explicit range check throws; when it equals the length the check is
passed (it tests `length < index`) but reading `this.oneofs[index]` gives
`undefined` and `oneof.fields.push` then throws, so construction still
fails. -/
theorem c5_oneof_index (oneofs : List OneofState) (oneofIdx fld : Nat) :
    ((∃ e, attachOneofField oneofs oneofIdx fld = Except.error e) ↔
      oneofs.length ≤ oneofIdx) ∧
    (∀ h : oneofIdx < oneofs.length,
      attachOneofField oneofs oneofIdx fld =
        Except.ok (oneofs.set oneofIdx
          ⟨oneofs[oneofIdx].name, oneofs[oneofIdx].fields ++ [fld]⟩)) := by
  by_cases h1 : oneofs.length < oneofIdx
  · constructor
    · simp only [attachOneofField, if_pos h1]
      constructor
      · intro _
        omega
      · intro _
        exact ⟨OneofAttachErr.noSuchOneofIndex, rfl⟩
    · intro h
      omega
  · by_cases h2 : oneofIdx < oneofs.length
    · have hget : oneofs[oneofIdx]? = some oneofs[oneofIdx] :=
        List.getElem?_eq_getElem h2
      constructor
      · simp only [attachOneofField, if_neg h1, hget]
        constructor
        · rintro ⟨e, he⟩
          exact absurd he (by simp)
        · intro hle
          omega
      · intro h
        simp only [attachOneofField, if_neg h1, hget]
    · have hget : oneofs[oneofIdx]? = none := by
        rw [List.getElem?_eq_none_iff]
        omega
      constructor
      · simp only [attachOneofField, if_neg h1, hget]
        constructor
        · intro _
          omega
        · intro _
          exact ⟨OneofAttachErr.undefinedOneofAccess, rfl⟩
      · intro h
        omega

theorem c5_oneof_index_witness :
    ((0 : Nat) < ([⟨"choice", []⟩] : List OneofState).length) ∧
    attachOneofField [⟨"choice", []⟩] 0 7 = Except.ok [⟨"choice", [7]⟩] := by
  refine ⟨by decide, ?_⟩
  have h := (c5_oneof_index [⟨"choice", []⟩] 0 7).2 (by decide)
  simpa using h

theorem JSImportPath.equals_self (p : JSImportPath) : p.equals p = true := by
  simp [JSImportPath.equals]

theorem addImport_jsImportPath (g : GeneratedFile) (p : JSImportPath) :
    (g.addImport p).fst.jsImportPath = g.jsImportPath := by
  rw [GeneratedFile.addImport]
  split <;> rfl

theorem addImport_countP (g : GeneratedFile) (p : JSImportPath)
    (h : g.imports.countP (fun imp => imp.equals p) ≤ 1) :
    (g.addImport p).fst.imports.countP (fun imp => imp.equals p) = 1 := by
  rw [GeneratedFile.addImport]
  by_cases hany : g.imports.any (fun imp => imp.equals p)
  · rw [if_pos hany]
    have hpos : 0 < g.imports.countP (fun imp => imp.equals p) := by
      rw [List.countP_pos_iff]
      exact List.any_eq_true.mp hany
    show g.imports.countP (fun imp => imp.equals p) = 1
    omega
  · rw [if_neg hany]
    have h0 : g.imports.countP (fun imp => imp.equals p) = 0 := by
      rw [List.countP_eq_zero]
      intro a ha hpa
      exact hany (List.any_eq_true.mpr ⟨a, ha, hpa⟩)
    simp only [List.countP_append, h0]
    simp [JSImportPath.equals_self]

theorem addImport_of_present (g : GeneratedFile) (p : JSImportPath)
    (h : 0 < g.imports.countP (fun imp => imp.equals p)) :
    g.addImport p = (g, false) := by
  rw [GeneratedFile.addImport, if_pos]
  rw [List.any_eq_true]
  exact List.countP_pos_iff.mp h

/-- C6 counterexample: `JSImportPath.equals` compares only the npm module
and the local path, never the path under the module. For a buffer whose
home import path is `⟨"p", "m", "a"⟩` and an identifier whose import path
`⟨"p", "m", "b"⟩` differs from it (structurally), both requests return the
bare, unqualified name and the import list stays empty, so finalization
emits zero import statements for that import path, not exactly one as the
claim states. -/
theorem c6_counterexample :
    c6HomePath ≠ c6ForeignPath ∧
    ((GeneratedFile.new "out.ts" c6HomePath).qualifiedJSIdent c6Ident).fst = "X" ∧
    (((GeneratedFile.new "out.ts" c6HomePath).qualifiedJSIdent
        c6Ident).snd.qualifiedJSIdent c6Ident).fst = "X" ∧
    (((GeneratedFile.new "out.ts" c6HomePath).qualifiedJSIdent
        c6Ident).snd.qualifiedJSIdent c6Ident).snd.imports = [] := by
  refine ⟨by decide, by decide, by decide, by decide⟩

/-- C6 amended: for every buffer and identifier whose import path differs
from the home import path of the buffer under `JSImportPath.equals` (npm
module or local path differ; the path under the module is not compared),
requesting the qualified form twice returns the identical alias-qualified
string both times, and the import list of the buffer — from which
finalization emits one import statement per entry — holds exactly one
entry for that import path. Two identifiers whose import paths are structurally equal share all
three components and hence are `equals`-equal, so they reuse the same
entry and alias. -/
theorem c6_amended (g : GeneratedFile) (ident : JSIdent)
    (resolveImport : JSImportPath → JSImportPath → String)
    (hne : g.jsImportPath.equals ident.importPath = false)
    (hcount : g.imports.countP (fun imp => imp.equals ident.importPath) ≤ 1) :
    (g.qualifiedJSIdent ident).fst =
      ((g.qualifiedJSIdent ident).snd.qualifiedJSIdent ident).fst ∧
    (g.qualifiedJSIdent ident).fst =
      aliasImportPath g.jsImportPath ident.importPath ++ "." ++ ident.name ∧
    ((g.qualifiedJSIdent ident).snd.qualifiedJSIdent ident).snd.imports.countP
      (fun imp => imp.equals ident.importPath) = 1 ∧
    (((g.qualifiedJSIdent ident).snd.qualifiedJSIdent ident).snd.importStatements
        resolveImport).length =
      ((g.qualifiedJSIdent ident).snd.qualifiedJSIdent ident).snd.imports.length := by
  have hq1 : g.qualifiedJSIdent ident =
      (aliasImportPath g.jsImportPath ident.importPath ++ "." ++ ident.name,
        (g.addImport ident.importPath).fst) := by
    rw [GeneratedFile.qualifiedJSIdent, if_neg]
    rw [hne]
    simp
  have hg1path : (g.addImport ident.importPath).fst.jsImportPath = g.jsImportPath :=
    addImport_jsImportPath g ident.importPath
  have hg1count :
      (g.addImport ident.importPath).fst.imports.countP
        (fun imp => imp.equals ident.importPath) = 1 :=
    addImport_countP g ident.importPath hcount
  have hadd2 : (g.addImport ident.importPath).fst.addImport ident.importPath =
      ((g.addImport ident.importPath).fst, false) :=
    addImport_of_present _ _ (by rw [hg1count]; exact Nat.one_pos)
  have hq2 : (g.addImport ident.importPath).fst.qualifiedJSIdent ident =
      (aliasImportPath g.jsImportPath ident.importPath ++ "." ++ ident.name,
        (g.addImport ident.importPath).fst) := by
    rw [GeneratedFile.qualifiedJSIdent, if_neg]
    · rw [hadd2, hg1path]
    · rw [hg1path, hne]
      simp
  rw [hq1]
  refine ⟨?_, rfl, ?_, ?_⟩
  · rw [hq2]
  · rw [hq2]
    exact hg1count
  · rw [hq2, GeneratedFile.importStatements, List.length_map]

theorem c6_amended_witness :
    (GeneratedFile.new "o.ts" c6wHomePath).jsImportPath.equals c6wIdent.importPath = false ∧
    (GeneratedFile.new "o.ts" c6wHomePath).imports.countP
      (fun imp => imp.equals c6wIdent.importPath) ≤ 1 ∧
    (((GeneratedFile.new "o.ts" c6wHomePath).qualifiedJSIdent c6wIdent).fst =
        (((GeneratedFile.new "o.ts" c6wHomePath).qualifiedJSIdent
            c6wIdent).snd.qualifiedJSIdent c6wIdent).fst ∧
      ((GeneratedFile.new "o.ts" c6wHomePath).qualifiedJSIdent c6wIdent).fst =
        aliasImportPath (GeneratedFile.new "o.ts" c6wHomePath).jsImportPath
          c6wIdent.importPath ++ "." ++ c6wIdent.name ∧
      (((GeneratedFile.new "o.ts" c6wHomePath).qualifiedJSIdent
          c6wIdent).snd.qualifiedJSIdent c6wIdent).snd.imports.countP
        (fun imp => imp.equals c6wIdent.importPath) = 1 ∧
      ((((GeneratedFile.new "o.ts" c6wHomePath).qualifiedJSIdent
            c6wIdent).snd.qualifiedJSIdent c6wIdent).snd.importStatements
          (fun _ _ => "")).length =
        (((GeneratedFile.new "o.ts" c6wHomePath).qualifiedJSIdent
            c6wIdent).snd.qualifiedJSIdent c6wIdent).snd.imports.length) :=
  ⟨by decide, by decide,
    c6_amended (GeneratedFile.new "o.ts" c6wHomePath) c6wIdent (fun _ _ => "")
      (by decide) (by decide)⟩

theorem jsReplaceUnderscore_eq_specSanitize (s : String) :
    jsReplaceUnderscore aliasSanitizeChars s = specSanitize s := by
  rw [jsReplaceUnderscore, specSanitize]
  have hfun : (fun c : Char => if c ∈ aliasSanitizeChars then '_' else c) =
      (fun c : Char => if c = '/' ∨ c = '.' ∨ c = '-' ∨ c = '@' then '_' else c) := by
    funext c
    by_cases h : c ∈ aliasSanitizeChars
    · rw [if_pos h, if_pos]
      revert h
      simp only [aliasSanitizeChars, List.mem_cons, List.not_mem_nil, or_false]
      tauto
    · rw [if_neg h, if_neg]
      revert h
      simp only [aliasSanitizeChars, List.mem_cons, List.not_mem_nil, or_false]
      tauto
  rw [hfun]

theorem modulePart_eq_amendedPkgSanitize (s : String) :
    jsDropAtSign (jsReplaceUnderscore ['/', '.', '-'] s) = amendedPkgSanitize s := by
  rw [jsDropAtSign, jsReplaceUnderscore, amendedPkgSanitize]
  congr 1
  have hmap : (fun c : Char => if c ∈ (['/', '.', '-'] : List Char) then '_' else c) =
      (fun c : Char => if c = '/' ∨ c = '.' ∨ c = '-' then '_' else c) := by
    funext c
    by_cases hm : c ∈ (['/', '.', '-'] : List Char)
    · rw [if_pos hm, if_pos]
      revert hm
      simp only [List.mem_cons, List.not_mem_nil, or_false]
      tauto
    · rw [if_neg hm, if_neg]
      revert hm
      simp only [List.mem_cons, List.not_mem_nil, or_false]
      tauto
  rw [hmap]
  induction s.data with
  | nil => rfl
  | cons c cs ih =>
    simp only [List.map_cons, List.filter_cons, List.filterMap_cons]
    by_cases hc : c = '@'
    · subst hc
      simpa using ih
    · have hX : (if c = '/' ∨ c = '.' ∨ c = '-' then '_' else c) ≠ '@' := by
        by_cases hp : c = '/' ∨ c = '.' ∨ c = '-'
        · rw [if_pos hp]
          decide
        · rw [if_neg hp]
          exact hc
      rw [if_neg hc]
      simp [hX]
      simpa using ih

/-- C7 counterexample: the claim says sanitize replaces each of `/ . - @`
with an underscore in every part, predicting alias `_a_b` for the foreign
package `@a/b` referenced from a local buffer; the code removes `@` in
the package-name part instead, producing `a_b`. -/
theorem c7_counterexample :
    aliasImportPath ⟨"x", "", ""⟩ ⟨"", "@a/b", ""⟩ = "a_b" ∧
    specAliasImportPath ⟨"x", "", ""⟩ ⟨"", "@a/b", ""⟩ = "_a_b" ∧
    aliasImportPath ⟨"x", "", ""⟩ ⟨"", "@a/b", ""⟩ ≠
      specAliasImportPath ⟨"x", "", ""⟩ ⟨"", "@a/b", ""⟩ := by
  refine ⟨by decide, by decide, by decide⟩

/-- C7 amended: the alias of a foreign npm package is the package name
with `/`, `.`, `-` replaced by underscores and `@` removed, followed,
when the package sub-path is non-empty, by two underscores and the
sub-path sanitized with all four characters `/ . - @` replaced by
underscores; a local or same-package module gets an underscore followed by
its local path sanitized the same four-character way. -/
theorem c7_amended (g p : JSImportPath) :
    aliasImportPath g p = amendedAliasImportPath g p := by
  rw [aliasImportPath, amendedAliasImportPath]
  by_cases h : g.npmModule ≠ p.npmModule
  · rw [if_pos h, if_pos h]
    by_cases hsub : p.npmPathUnderModule = ""
    · rw [if_pos hsub, if_pos hsub, modulePart_eq_amendedPkgSanitize]
    · rw [if_neg hsub, if_neg hsub, modulePart_eq_amendedPkgSanitize,
        jsReplaceUnderscore_eq_specSanitize]
  · rw [if_neg h, if_neg h, jsReplaceUnderscore_eq_specSanitize]

/-- C8: the FileOptions constructor populates `javaPackage` from the
go_package option (`proto?.getGoPackage()`), so it always equals
`goPackage`, and the java_package option value is never read: changing it
leaves `javaPackage` unchanged. -/
theorem c8_java_package_reads_go_package (o : FileOptionsProto) (jp : Option String) :
    (FileOptions.ofProto (some o)).javaPackage = o.goPackage ∧
    (FileOptions.ofProto (some o)).javaPackage =
      (FileOptions.ofProto (some o)).goPackage ∧
    (FileOptions.ofProto (some ⟨jp, o.goPackage⟩)).javaPackage =
      (FileOptions.ofProto (some o)).javaPackage := by
  simp [FileOptions.ofProto]

/-- C9: the kind conversion is the identity on numbers: for any field
descriptor with valid name, number and label, a non-zero type value `t` —
including values outside the enumerated kinds 1..18 — is accepted and the
constructed kind equals `t`, while an absent or zero type value is fatal. -/
theorem c9_kind_identity (p : FieldDescriptorProto) (nm : String) (num : Nat)
    (hn : p.name = some nm) (hnm : nm ≠ "")
    (hnum : p.number = some num) (hnum0 : num ≠ 0)
    (hl : p.label = some 1 ∨ p.label = some 2 ∨ p.label = some 3) :
    (∀ t : Nat, t ≠ 0 → p.type = some t →
      (fieldCtor p).map FieldCore.kind = Except.ok t) ∧
    (p.type = none ∨ p.type = some 0 →
      fieldCtor p = Except.error FieldCtorErr.typeNotPopulated) := by
  constructor
  · intro t ht hty
    rcases hl with hlab | hlab | hlab <;>
      simp [fieldCtor, hn, hnm, hnum, hnum0, hty, ht, hlab, kind, Except.map]
  · intro hty
    rcases hty with hty | hty <;>
      rcases hl with hlab | hlab | hlab <;>
        simp [fieldCtor, hn, hnm, hnum, hnum0, hty, hlab]

theorem c9_kind_identity_witness :
    (99 : Nat) ≠ 0 ∧
    (fieldCtor ⟨some "f", some 1, some 99, some 1⟩).map FieldCore.kind =
      Except.ok 99 :=
  ⟨by decide,
    (c9_kind_identity ⟨some "f", some 1, some 99, some 1⟩ "f" 1 rfl (by decide)
      rfl (by decide) (Or.inl rfl)).1 99 (by decide) rfl⟩

/-- C10: the File constructor rejects an absent or empty package with a
fatal error, so every successfully constructed File carries a non-empty
package name. -/
theorem c10_package_required (name packageName : Option String) :
    (∀ fc : FileDescriptorCore, fileCtorCore name packageName = Except.ok fc →
      fc.packageName ≠ "") ∧
    (∀ nm : String, name = some nm → nm ≠ "" →
      (packageName = none ∨ packageName = some "") →
      fileCtorCore name packageName = Except.error FileCtorErr.packageNotPopulated) := by
  constructor
  · intro fc hok
    rcases name with _ | nm
    · simp [fileCtorCore] at hok
    · by_cases hnm : nm = ""
      · simp [fileCtorCore, hnm] at hok
      · rcases packageName with _ | pkg
        · simp [fileCtorCore, hnm] at hok
        · by_cases hpkg : pkg = ""
          · simp [fileCtorCore, hnm, hpkg] at hok
          · simp [fileCtorCore, hnm, hpkg] at hok
            rw [← hok]
            exact hpkg
  · intro nm hn hnm hpkg
    rcases hpkg with hpkg | hpkg <;>
      simp [fileCtorCore, hn, hnm, hpkg]

theorem c10_package_required_witness :
    ("pkg" : String) ≠ "" ∧
    fileCtorCore (some "a.proto") none = Except.error FileCtorErr.packageNotPopulated :=
  ⟨(c10_package_required (some "a.proto") (some "pkg")).1 ⟨"a.proto", "pkg"⟩
      rfl,
    (c10_package_required (some "a.proto") none).2 "a.proto" rfl (by decide)
      (Or.inl rfl)⟩

end Protogen
